import Mathlib

/-!
Verification of `ngx-rxjs-render-scheduler`
(src/projects/ngx-rxjs-render-scheduler/src/lib/afterNextRenderScheduler.ts).

The library schedules RxJS work to run after Angular's next render.  We give a
shallow embedding of the two classes:

* `AfterNextRenderScheduler` — configuration resolution (constructor) and the
  `schedule` entry point;
* `AfterNextRenderAction` — the per-task state machine (`schedule`, `execute`,
  `unsubscribe`).

Effects on the host runtime (pending `setTimeout` timers, pending
`afterNextRender` registrations, invocations of the caller's `work` function,
`clearTimeout` calls) are made explicit as components of a `World` record, and
the callbacks the code registers are modelled by fire events (`fireTimer`,
`fireRender`) that pop a registration and run the exact callback body the
source registers.  `afterNextRender` registrations are kept in a FIFO queue and
`fireRender` pops the front, encoding the provider-level FIFO assumption of the
spec.  `work` is modelled as `Option σ → Option ε`: `none` means normal return,
`some e` means the function threw `e`; exceptions propagate as the `Option ε`
component of `execute` / `fireRender` results.
-/

/-- An Angular `Injector` reference; only its identity matters to this code. -/
structure Injector where
  id : Nat
deriving DecidableEq, Repr

/-- One `AfterNextRenderAction<T>` object: the injector and `work` it was
constructed with (lines 38-43), the `closed` flag inherited from rxjs
`Subscription`, and the `timeoutId` field (line 36, initially `null`). -/
structure AfterNextRenderAction (σ ε : Type) where
  injector : Option Injector
  work : Option σ → Option ε
  closed : Bool
  timeoutId : Option Nat

/-- The explicit state of the host runtime plus every action object created so
far.  `tasks` maps an action id to the action object; `nextTask` is the next
fresh id.  `timers` holds the pending `setTimeout` registrations as
`(timerId, actionId, capturedState, delayMs)`; `renders` holds the pending
`afterNextRender` registrations as `(actionId, capturedState, injector)` in
FIFO order (the injector is the `{ injector }` option passed to
`afterNextRender`).
`log` records every invocation of a `work` function (which action, with which
state), and `cleared` records every `clearTimeout` call. -/
structure World (σ ε : Type) where
  tasks : Nat → Option (AfterNextRenderAction σ ε)
  nextTask : Nat
  timers : List (Nat × Nat × Option σ × Int)
  renders : List (Nat × Option σ × Option Injector)
  nextTimerId : Nat
  log : List (Nat × Option σ)
  cleared : List Nat

/-- A world with no actions and no pending registrations. -/
def World.empty (σ ε : Type) : World σ ε :=
  { tasks := fun _ => none
    nextTask := 0
    timers := []
    renders := []
    nextTimerId := 0
    log := []
    cleared := [] }

namespace AfterNextRenderAction

/-- `AfterNextRenderAction.unsubscribe` (lines 72-83): if `closed`, return;
otherwise clear the armed timer if any (`clearTimeout`, `timeoutId = null`)
and close the subscription (`super.unsubscribe()`). -/
def unsubscribe (w : World σ ε) (tid : Nat) : World σ ε :=
  match w.tasks tid with
  | none => w
  | some t =>
    if t.closed then w
    else
      match t.timeoutId with
      | some i =>
        { w with
          timers := w.timers.filter (fun e => e.1 ≠ i)
          cleared := w.cleared ++ [i]
          tasks := fun j =>
            if j = tid then some { t with timeoutId := none, closed := true }
            else w.tasks j }
      | none =>
        { w with
          tasks := fun j =>
            if j = tid then some { t with closed := true } else w.tasks j }

/-- `AfterNextRenderAction.execute` (lines 59-70): if `closed`, return;
otherwise invoke `this.work(state)`; if it throws, `this.unsubscribe()` and
re-throw the error.  The returned `Option ε` is the exception propagated to
the caller (`none` = normal return). -/
def execute (w : World σ ε) (tid : Nat) (state : Option σ) :
    World σ ε × Option ε :=
  match w.tasks tid with
  | none => (w, none)
  | some t =>
    if t.closed then (w, none)
    else
      let w1 : World σ ε := { w with log := w.log ++ [(tid, state)] }
      match t.work state with
      | none => (w1, none)
      | some e => (unsubscribe w1 tid, some e)

/-- `AfterNextRenderAction.schedule` (lines 45-57): if `closed`, return `this`;
if `delay > 0`, `this.timeoutId = setTimeout(() => this.schedule(state), delay)`;
otherwise `afterNextRender(() => this.execute(state), { injector: this.injector })`.
The registered callbacks live in `World.timers` / `World.renders` and are run
by `fireTimer` / `fireRender` below.  The source returns `this`; the handle
(`tid`) is unchanged, so the model returns only the world. -/
def schedule (w : World σ ε) (tid : Nat) (state : Option σ) (delay : Int) :
    World σ ε :=
  match w.tasks tid with
  | none => w
  | some t =>
    if t.closed then w
    else if delay > 0 then
      { w with
        tasks := fun j =>
          if j = tid then some { t with timeoutId := some w.nextTimerId }
          else w.tasks j
        timers := w.timers ++ [(w.nextTimerId, tid, state, delay)]
        nextTimerId := w.nextTimerId + 1 }
    else
      { w with renders := w.renders ++ [(tid, state, t.injector)] }

end AfterNextRenderAction

/-- The host timer fires a pending `setTimeout` registration: the registration
is consumed and its callback `() => this.schedule(state)` runs, i.e.
`schedule(state, 0)` (the `delay` parameter defaults to `0`, line 45). -/
def fireTimer (w : World σ ε) : World σ ε :=
  match w.timers with
  | [] => w
  | (_, tid, state, _) :: rest =>
    AfterNextRenderAction.schedule { w with timers := rest } tid state 0

/-- Angular fires the oldest pending `afterNextRender` registration (FIFO
provider assumption): the registration is consumed and its callback
`() => this.execute(state)` runs.  A `some e` result is the exception the
callback threw into the provider. -/
def fireRender (w : World σ ε) : World σ ε × Option ε :=
  match w.renders with
  | [] => (w, none)
  | (tid, state, _) :: rest =>
    AfterNextRenderAction.execute { w with renders := rest } tid state

/-- `AfterNextRenderScheduler` instance state: the `now` clock and the resolved
injector (lines 10-11).  The clock is abstract in `ν`. -/
structure AfterNextRenderScheduler (ν : Type) where
  now : ν
  injector : Option Injector

/-- A configuration error: `inject(Injector)` called outside an injection
context throws. -/
inductive ConfigError where
  | noInjectionContext
deriving DecidableEq, Repr

/-- The constructor argument (lines 13-15): `undefined`, an `Injector`
(detected by `'get' in options`), or an `AfterNextRenderSchedulerOptions`
object with optional `injector` and `now` fields. -/
inductive CtorArg (ν : Type) where
  | undef
  | inj (i : Injector)
  | options (injector : Option Injector) (now : Option ν)

namespace AfterNextRenderScheduler

/-- The `AfterNextRenderScheduler` constructor (lines 16-24).  `dateNow` is the
ambient `Date.now` function; `ambient` is the injector `inject(Injector)` would
resolve, `none` when no injection context is active (in which case `inject`
throws, modelled as `Except.error`). -/
def construct (dateNow : ν) (ambient : Option Injector) :
    CtorArg ν → Except ConfigError (AfterNextRenderScheduler ν)
  | .inj i => .ok { now := dateNow, injector := some i }
  | .undef =>
    match ambient with
    | some i => .ok { now := dateNow, injector := some i }
    | none => .error .noInjectionContext
  | .options injOpt nowOpt =>
    match injOpt with
    | some i => .ok { now := nowOpt.getD dateNow, injector := some i }
    | none =>
      match ambient with
      | some i => .ok { now := nowOpt.getD dateNow, injector := some i }
      | none => .error .noInjectionContext

/-- `AfterNextRenderScheduler.schedule` (lines 26-32): construct a fresh
`AfterNextRenderAction(this.injector, work)` and delegate to its
`schedule(state, delay)`, returning the action as the subscription handle
(modelled by its id). -/
def schedule (sch : AfterNextRenderScheduler ν) (w : World σ ε)
    (work : Option σ → Option ε) (delay : Int) (state : Option σ) :
    World σ ε × Nat :=
  let tid := w.nextTask
  let w1 : World σ ε :=
    { w with
      tasks := fun j =>
        if j = tid then
          some { injector := sch.injector, work := work, closed := false,
                 timeoutId := none }
        else w.tasks j
      nextTask := tid + 1 }
  (AfterNextRenderAction.schedule w1 tid state delay, tid)

end AfterNextRenderScheduler

/-- The events the environment can perform on a world: the public methods of an
action and the two callback sources firing. -/
inductive Ev (σ : Type) where
  | schedule (tid : Nat) (state : Option σ) (delay : Int)
  | execute (tid : Nat) (state : Option σ)
  | unsub (tid : Nat)
  | fireTimer
  | fireRender

/-- One event applied to the world (exceptions discarded by the driver). -/
def stepEv (w : World σ ε) : Ev σ → World σ ε
  | .schedule tid state delay => AfterNextRenderAction.schedule w tid state delay
  | .execute tid state => (AfterNextRenderAction.execute w tid state).1
  | .unsub tid => AfterNextRenderAction.unsubscribe w tid
  | .fireTimer => fireTimer w
  | .fireRender => (fireRender w).1

/-- A sequence of events applied in order. -/
def runEvs (w : World σ ε) (evs : List (Ev σ)) : World σ ε :=
  evs.foldl stepEv w

/-- Events that happen without the task's owner re-invoking `schedule` or
`execute` directly: registered callbacks firing, and cancellation. -/
def Ev.isPassive : Ev σ → Bool
  | .fireTimer => true
  | .fireRender => true
  | .unsub _ => true
  | .schedule _ _ _ => false
  | .execute _ _ => false

/-- Number of times action `tid`'s `work` has been invoked. -/
def firedFor (w : World σ ε) (tid : Nat) : Nat :=
  w.log.countP (fun e => e.1 == tid)

/-- Number of pending registrations (timers and render callbacks) whose
callback belongs to action `tid`. -/
def pendingFor (w : World σ ε) (tid : Nat) : Nat :=
  w.timers.countP (fun e => e.2.1 == tid) + w.renders.countP (fun e => e.1 == tid)

/-- Whether action `tid` exists and is closed. -/
def closedAt (w : World σ ε) (tid : Nat) : Prop :=
  ∃ t, w.tasks tid = some t ∧ t.closed = true

/-! ### Helper lemmas about the action methods -/

/-- `unsubscribe` never touches the invocation log. -/
theorem unsubscribe_log (w : World σ ε) (tid : Nat) :
    (AfterNextRenderAction.unsubscribe w tid).log = w.log := by
  unfold AfterNextRenderAction.unsubscribe
  cases w.tasks tid with
  | none => rfl
  | some t =>
    by_cases hc : t.closed <;> cases ht : t.timeoutId <;> simp [hc, ht]

/-- `schedule` never touches the invocation log: no `work` runs synchronously. -/
theorem schedule_log (w : World σ ε) (tid : Nat) (state : Option σ) (delay : Int) :
    (AfterNextRenderAction.schedule w tid state delay).log = w.log := by
  unfold AfterNextRenderAction.schedule
  cases w.tasks tid with
  | none => rfl
  | some t =>
    by_cases hc : t.closed <;> by_cases hd : delay > 0 <;> simp [hc, hd]

/-! ### C7, C8 — constructor behaviour -/

/-- C7: constructing with no explicit injector (no argument, or an options
object without an `injector` field) throws synchronously when no ambient
injection context is active; when an injector is supplied (directly or via
options) construction succeeds for every ambient context, i.e. the ambient
context is never consulted for resolution failure. -/
theorem C7_construct_requires_context {ν : Type} (dateNow : ν) (nowOpt : Option ν) :
    AfterNextRenderScheduler.construct dateNow (none : Option Injector)
        (CtorArg.undef (ν := ν)) = .error .noInjectionContext ∧
    AfterNextRenderScheduler.construct dateNow none (CtorArg.options none nowOpt) =
      .error .noInjectionContext ∧
    (∀ (ambient : Option Injector) (i : Injector),
      (∃ s, AfterNextRenderScheduler.construct dateNow ambient (CtorArg.inj i) = .ok s) ∧
      (∃ s, AfterNextRenderScheduler.construct dateNow ambient
          (CtorArg.options (some i) nowOpt) = .ok s)) := by
  refine ⟨rfl, rfl, fun ambient i => ⟨⟨_, rfl⟩, ⟨_, rfl⟩⟩⟩

/-- C8: configuration resolution.  An explicit `Injector` argument stores that
injector verbatim with the wall-clock default; an options object takes the
supplied clock (else wall clock) and the supplied injector (else the ambient
injector resolved at construction time). -/
theorem C8_construct_resolution {ν : Type} (dateNow : ν) (ambient : Option Injector)
    (i a : Injector) (f : ν) (nowOpt : Option ν) :
    AfterNextRenderScheduler.construct dateNow ambient (CtorArg.inj i) =
      .ok { now := dateNow, injector := some i } ∧
    AfterNextRenderScheduler.construct dateNow ambient (CtorArg.options (some i) (some f)) =
      .ok { now := f, injector := some i } ∧
    AfterNextRenderScheduler.construct dateNow ambient (CtorArg.options (some i) none) =
      .ok { now := dateNow, injector := some i } ∧
    AfterNextRenderScheduler.construct dateNow (some a) (CtorArg.options none nowOpt) =
      .ok { now := nowOpt.getD dateNow, injector := some a } ∧
    AfterNextRenderScheduler.construct dateNow (some a) (CtorArg.undef (ν := ν)) =
      .ok { now := dateNow, injector := some a } :=
  ⟨rfl, rfl, rfl, rfl, rfl⟩

/-! ### C6 — idempotent cancellation -/

/-- C6: `unsubscribe` is idempotent for every task in any state: a second call
finds `closed` already set and changes nothing (no second timer-clear — the
`cleared` log gains no entry — and no state change). -/
theorem C6_unsubscribe_idempotent (w : World σ ε) (tid : Nat) :
    AfterNextRenderAction.unsubscribe (AfterNextRenderAction.unsubscribe w tid) tid =
      AfterNextRenderAction.unsubscribe w tid := by
  cases h : w.tasks tid with
  | none => simp [AfterNextRenderAction.unsubscribe, h]
  | some t =>
    by_cases hc : t.closed
    · simp [AfterNextRenderAction.unsubscribe, h, hc]
    · cases ht : t.timeoutId with
      | some i => simp [AfterNextRenderAction.unsubscribe, h, hc, ht]
      | none => simp [AfterNextRenderAction.unsubscribe, h, hc, ht]

/-- `schedule` on a live task keeps its `injector`, `work` and `closed` fields,
touching only `timeoutId` (and only on the timer path). -/
theorem schedule_tasks_tid (w : World σ ε) (tid : Nat) (t : AfterNextRenderAction σ ε)
    (state : Option σ) (delay : Int) (h : w.tasks tid = some t) (hc : t.closed = false) :
    (AfterNextRenderAction.schedule w tid state delay).tasks tid =
      some { t with timeoutId := if delay > 0 then some w.nextTimerId else t.timeoutId } := by
  unfold AfterNextRenderAction.schedule
  rw [h]
  by_cases hd : delay > 0 <;> simp [hc, hd, h]
  rw [← hc]

/-! ### C3 — `AfterNextRenderScheduler.schedule` -/

/-- C3: `Scheduler.schedule(work, delay, state)` never invokes `work`
synchronously for any `delay` (the invocation log is unchanged); it creates
exactly one fresh action bound to the scheduler's injector and `work`, with
`closed = false` (the cancellation handle), returns that action's id, and its
whole effect is delegating to the action's `schedule(state, delay)`. -/
theorem C3_scheduler_schedule_no_sync_work {ν : Type} (sch : AfterNextRenderScheduler ν)
    (w : World σ ε) (work : Option σ → Option ε) (delay : Int) (state : Option σ) :
    (sch.schedule w work delay state).2 = w.nextTask ∧
    (sch.schedule w work delay state).1.log = w.log ∧
    (∀ t, (sch.schedule w work delay state).1.tasks w.nextTask = some t →
      t.closed = false ∧ t.work = work ∧ t.injector = sch.injector) ∧
    ((sch.schedule w work delay state).1.tasks w.nextTask).isSome = true ∧
    (sch.schedule w work delay state).1 =
      AfterNextRenderAction.schedule
        { w with
          tasks := fun j =>
            if j = w.nextTask then
              some { injector := sch.injector, work := work, closed := false,
                     timeoutId := none }
            else w.tasks j
          nextTask := w.nextTask + 1 }
        w.nextTask state delay := by
  have hfresh :
      (sch.schedule w work delay state).1.tasks w.nextTask =
        some { injector := sch.injector, work := work, closed := false,
               timeoutId :=
                 if delay > 0 then some w.nextTimerId else none } := by
    have := schedule_tasks_tid
      ({ w with
        tasks := fun j =>
          if j = w.nextTask then
            some { injector := sch.injector, work := work, closed := false,
                   timeoutId := none }
          else w.tasks j
        nextTask := w.nextTask + 1 } : World σ ε)
      w.nextTask
      { injector := sch.injector, work := work, closed := false,
        timeoutId := none }
      state delay (by simp) rfl
    exact this
  refine ⟨rfl, schedule_log _ _ _ _, ?_, ?_, rfl⟩
  · intro t ht
    rw [hfresh] at ht
    cases ht
    exact ⟨rfl, rfl, rfl⟩
  · rw [hfresh]
    rfl

/-! ### C4 — the two scheduling paths -/

/-- C4: for a live (non-cancelled) task, `schedule(state, delay)` with
`delay > 0` arms exactly one timer for `delay` milliseconds and records its id
in `timeoutId`; firing that timer re-invokes `schedule(state, 0)`.  With
`delay ≤ 0` it registers exactly one `afterNextRender` callback; firing that
callback invokes `execute(state)`. -/
theorem C4_schedule_timer_or_render (w : World σ ε) (tid : Nat)
    (t : AfterNextRenderAction σ ε) (state : Option σ) (delay : Int)
    (h : w.tasks tid = some t) (hc : t.closed = false) :
    (delay > 0 →
      AfterNextRenderAction.schedule w tid state delay =
        { w with
          tasks := fun j =>
            if j = tid then some { t with timeoutId := some w.nextTimerId }
            else w.tasks j
          timers := w.timers ++ [(w.nextTimerId, tid, state, delay)]
          nextTimerId := w.nextTimerId + 1 } ∧
      (∀ (w2 : World σ ε) rest, w2.timers = (w.nextTimerId, tid, state, delay) :: rest →
        fireTimer w2 =
          AfterNextRenderAction.schedule { w2 with timers := rest } tid state 0)) ∧
    (delay ≤ 0 →
      AfterNextRenderAction.schedule w tid state delay =
        { w with renders := w.renders ++ [(tid, state, t.injector)] } ∧
      (∀ (w2 : World σ ε) rest, w2.renders = (tid, state, t.injector) :: rest →
        fireRender w2 =
          AfterNextRenderAction.execute { w2 with renders := rest } tid state)) := by
  constructor
  · intro hd
    refine ⟨?_, ?_⟩
    · unfold AfterNextRenderAction.schedule
      rw [h]
      simp [hc, hd]
    · intro w2 rest h2
      unfold fireTimer
      rw [h2]
  · intro hd
    have hd' : ¬ delay > 0 := not_lt.mpr hd
    refine ⟨?_, ?_⟩
    · unfold AfterNextRenderAction.schedule
      rw [h]
      simp [hc, hd']
    · intro w2 rest h2
      unfold fireRender
      rw [h2]

/-! ### C5 — work errors cancel the task and re-raise -/

/-- C5: if a live task's `work` throws during `execute(state)`, the task ends
up `Cancelled` (`closed = true`), any armed timer is cleared, the same error is
re-raised to the caller of `execute`, and `work` was invoked exactly once (one
new log entry — no retry, no swallowing). -/
theorem C5_work_error_cancels_and_reraises (w : World σ ε) (tid : Nat)
    (t : AfterNextRenderAction σ ε) (state : Option σ) (e : ε)
    (h : w.tasks tid = some t) (hc : t.closed = false) (hw : t.work state = some e) :
    ∃ w2, AfterNextRenderAction.execute w tid state = (w2, some e) ∧
      closedAt w2 tid ∧
      w2.log = w.log ++ [(tid, state)] ∧
      (∀ i, t.timeoutId = some i →
        w2.timers = w.timers.filter (fun x => x.1 ≠ i) ∧
        w2.cleared = w.cleared ++ [i]) ∧
      (t.timeoutId = none → w2.timers = w.timers ∧ w2.cleared = w.cleared) := by
  cases ht : t.timeoutId with
  | some i =>
    refine ⟨{ w with
        log := w.log ++ [(tid, state)]
        timers := w.timers.filter (fun x => x.1 ≠ i)
        cleared := w.cleared ++ [i]
        tasks := fun j =>
          if j = tid then some { t with timeoutId := none, closed := true }
          else w.tasks j }, ?_, ?_, rfl, ?_, ?_⟩
    · unfold AfterNextRenderAction.execute AfterNextRenderAction.unsubscribe
      rw [h]
      simp [hc, hw, h, ht]
    · exact ⟨{ t with timeoutId := none, closed := true }, by simp, rfl⟩
    · intro i2 hi2
      cases hi2
      exact ⟨rfl, rfl⟩
    · intro hn
      simp at hn
  | none =>
    refine ⟨{ w with
        log := w.log ++ [(tid, state)]
        tasks := fun j =>
          if j = tid then some { t with closed := true } else w.tasks j }, ?_, ?_, rfl, ?_, ?_⟩
    · unfold AfterNextRenderAction.execute AfterNextRenderAction.unsubscribe
      rw [h]
      simp [hc, hw, h, ht]
    · exact ⟨{ t with closed := true }, by simp, rfl⟩
    · intro i2 hi2
      simp at hi2
    · intro _
      exact ⟨rfl, rfl⟩

/-! ### C10 — successful execution leaves the action state unchanged -/

/-- C10: when `execute(state)` runs `work` to successful completion, nothing in
the action's observable state changes: the world is unchanged except for the
invocation-log entry (so `closed` stays `false`, `timeoutId`, pending timers,
renders and the cleared log are untouched), no error is raised, and a later
`schedule` call on the same action still registers a new render callback. -/
theorem C10_execute_success_frame (w : World σ ε) (tid : Nat)
    (t : AfterNextRenderAction σ ε) (state : Option σ)
    (h : w.tasks tid = some t) (hc : t.closed = false) (hw : t.work state = none) :
    AfterNextRenderAction.execute w tid state =
      ({ w with log := w.log ++ [(tid, state)] }, none) ∧
    (∀ (state2 : Option σ) (delay2 : Int), delay2 ≤ 0 →
      AfterNextRenderAction.schedule
          (AfterNextRenderAction.execute w tid state).1 tid state2 delay2 =
        { w with
          log := w.log ++ [(tid, state)]
          renders := w.renders ++ [(tid, state2, t.injector)] }) := by
  have hex : AfterNextRenderAction.execute w tid state =
      ({ w with log := w.log ++ [(tid, state)] }, none) := by
    unfold AfterNextRenderAction.execute
    rw [h]
    simp [hc, hw]
  refine ⟨hex, ?_⟩
  intro state2 delay2 hd
  rw [hex]
  unfold AfterNextRenderAction.schedule
  rw [show ({ w with log := w.log ++ [(tid, state)] } : World σ ε).tasks tid = some t from h]
  simp [hc, not_lt.mpr hd]

/-! ### Trace lemmas: a closed task stays closed and never runs again -/

/-- `unsubscribe` (of any task) keeps a closed task closed. -/
theorem closedAt_unsubscribe (w : World σ ε) (tid tid' : Nat) (h : closedAt w tid) :
    closedAt (AfterNextRenderAction.unsubscribe w tid') tid := by
  obtain ⟨t, ht, hc⟩ := h
  unfold AfterNextRenderAction.unsubscribe
  cases h2 : w.tasks tid' with
  | none => exact ⟨t, ht, hc⟩
  | some t2 =>
    by_cases hc2 : t2.closed
    · simp only [hc2, if_true]
      exact ⟨t, ht, hc⟩
    · simp only [hc2, if_false, Bool.false_eq_true]
      cases ht2 : t2.timeoutId with
      | some i =>
        by_cases he : tid = tid'
        · subst he
          exact ⟨{ t2 with timeoutId := none, closed := true }, by simp, rfl⟩
        · exact ⟨t, by simpa [he] using ht, hc⟩
      | none =>
        by_cases he : tid = tid'
        · subst he
          exact ⟨{ t2 with closed := true }, by simp [ht2], rfl⟩
        · exact ⟨t, by simpa [he] using ht, hc⟩

/-- `schedule` (of any task) keeps a closed task closed. -/
theorem closedAt_schedule (w : World σ ε) (tid tid' : Nat) (state : Option σ)
    (delay : Int) (h : closedAt w tid) :
    closedAt (AfterNextRenderAction.schedule w tid' state delay) tid := by
  obtain ⟨t, ht, hc⟩ := h
  unfold AfterNextRenderAction.schedule
  cases h2 : w.tasks tid' with
  | none => exact ⟨t, ht, hc⟩
  | some t2 =>
    by_cases hc2 : t2.closed
    · simp only [hc2, if_true]
      exact ⟨t, ht, hc⟩
    · simp only [hc2, if_false, Bool.false_eq_true]
      by_cases hd : delay > 0
      · simp only [hd, if_true]
        have he : tid ≠ tid' := by
          intro he
          subst he
          rw [ht] at h2
          cases h2
          exact hc2 hc
        exact ⟨t, by simpa [he] using ht, hc⟩
      · simp only [hd, if_false]
        exact ⟨t, ht, hc⟩

/-- `execute` (of any task) keeps a closed task closed and never adds an
invocation-log entry for it. -/
theorem closedAt_execute (w : World σ ε) (tid tid' : Nat) (state : Option σ)
    (h : closedAt w tid) :
    closedAt (AfterNextRenderAction.execute w tid' state).1 tid ∧
    firedFor (AfterNextRenderAction.execute w tid' state).1 tid = firedFor w tid := by
  obtain ⟨t, ht, hc⟩ := h
  unfold AfterNextRenderAction.execute
  cases h2 : w.tasks tid' with
  | none => exact ⟨⟨t, ht, hc⟩, rfl⟩
  | some t2 =>
    by_cases hc2 : t2.closed
    · simp only [hc2, if_true]
      exact ⟨⟨t, ht, hc⟩, trivial⟩
    · simp only [hc2, if_false, Bool.false_eq_true]
      have he : tid ≠ tid' := by
        intro he
        subst he
        rw [ht] at h2
        cases h2
        exact hc2 hc
      have hbit : (tid' == tid) = false := by
        simp [Ne.symm he]
      cases hw2 : t2.work state with
      | none =>
        refine ⟨⟨t, ht, hc⟩, ?_⟩
        simp [firedFor, List.countP_append, List.countP_cons, hbit]
      | some e =>
        refine ⟨closedAt_unsubscribe _ _ _ ⟨t, ht, hc⟩, ?_⟩
        have hlog := unsubscribe_log
          ({ w with log := w.log ++ [(tid', state)] } : World σ ε) tid'
        simp only [firedFor, hlog]
        simp [List.countP_append, List.countP_cons, hbit]

/-- One step of any event keeps a closed task closed and never runs its work. -/
theorem closedAt_stepEv (w : World σ ε) (tid : Nat) (ev : Ev σ) (h : closedAt w tid) :
    closedAt (stepEv w ev) tid ∧ firedFor (stepEv w ev) tid = firedFor w tid := by
  cases ev with
  | schedule tid' s d =>
    refine ⟨closedAt_schedule _ _ _ _ _ h, ?_⟩
    show firedFor (AfterNextRenderAction.schedule w tid' s d) tid = firedFor w tid
    unfold firedFor
    rw [schedule_log]
  | execute tid' s => exact closedAt_execute _ _ _ _ h
  | unsub tid' =>
    refine ⟨closedAt_unsubscribe _ _ _ h, ?_⟩
    show firedFor (AfterNextRenderAction.unsubscribe w tid') tid = firedFor w tid
    unfold firedFor
    rw [unsubscribe_log]
  | fireTimer =>
    show closedAt (fireTimer w) tid ∧ firedFor (fireTimer w) tid = firedFor w tid
    unfold fireTimer
    cases htm : w.timers with
    | nil => exact ⟨h, rfl⟩
    | cons e rest =>
      obtain ⟨i, tid', st, d⟩ := e
      have h1 : closedAt ({ w with timers := rest } : World σ ε) tid := h
      refine ⟨closedAt_schedule _ _ _ _ _ h1, ?_⟩
      unfold firedFor
      rw [schedule_log]
  | fireRender =>
    show closedAt (fireRender w).1 tid ∧ firedFor (fireRender w).1 tid = firedFor w tid
    unfold fireRender
    cases hrd : w.renders with
    | nil => exact ⟨h, rfl⟩
    | cons e rest =>
      obtain ⟨tid', st, inj⟩ := e
      have h1 : closedAt ({ w with renders := rest } : World σ ε) tid := h
      exact closedAt_execute _ _ _ _ h1

/-- Any event sequence keeps a closed task closed and never runs its work. -/
theorem closedAt_runEvs (w : World σ ε) (tid : Nat) (evs : List (Ev σ))
    (h : closedAt w tid) :
    closedAt (runEvs w evs) tid ∧ firedFor (runEvs w evs) tid = firedFor w tid := by
  induction evs generalizing w with
  | nil => exact ⟨h, rfl⟩
  | cons ev evs ih =>
    obtain ⟨h1, h2⟩ := closedAt_stepEv w tid ev h
    obtain ⟨h3, h4⟩ := ih (stepEv w ev) h1
    exact ⟨h3, h4.trans h2⟩

/-! ### C2 — cancellation is absorbing -/

/-- C2: once a task is cancelled (`closed = true`), every subsequent
`execute(state)` returns without invoking `work` and without changing anything;
every subsequent `schedule(state, delay)` registers nothing and returns the
task itself (the world is unchanged); and under any further event sequence —
callbacks firing any number of times, more method calls — the task stays
closed and its `work` is never invoked again. -/
theorem C2_cancellation_absorbing (w : World σ ε) (tid : Nat)
    (t : AfterNextRenderAction σ ε) (h : w.tasks tid = some t) (hc : t.closed = true) :
    (∀ state, AfterNextRenderAction.execute w tid state = (w, none)) ∧
    (∀ state delay, AfterNextRenderAction.schedule w tid state delay = w) ∧
    (∀ evs : List (Ev σ),
      closedAt (runEvs w evs) tid ∧ firedFor (runEvs w evs) tid = firedFor w tid) := by
  refine ⟨?_, ?_, fun evs => closedAt_runEvs w tid evs ⟨t, h, hc⟩⟩
  · intro state
    unfold AfterNextRenderAction.execute
    rw [h]
    simp [hc]
  · intro state delay
    unfold AfterNextRenderAction.schedule
    rw [h]
    simp [hc]

/-! ### Budget: pending registrations plus past invocations, per task -/

/-- Invocations so far plus pending registrations for task `tid`.  Every fire
event either consumes a registration for `tid` and produces at most one new
registration or invocation for it, or concerns another task — so under
callback-driven events the budget never grows. -/
def budget (w : World σ ε) (tid : Nat) : Nat :=
  firedFor w tid + pendingFor w tid

/-- `unsubscribe` never increases a task's budget (it can only clear a timer). -/
theorem budget_unsubscribe_le (w : World σ ε) (tid tid' : Nat) :
    budget (AfterNextRenderAction.unsubscribe w tid') tid ≤ budget w tid := by
  unfold AfterNextRenderAction.unsubscribe
  cases h2 : w.tasks tid' with
  | none => exact Nat.le_refl _
  | some t2 =>
    by_cases hc2 : t2.closed
    · simp only [hc2, if_true]
      exact Nat.le_refl _
    · simp only [hc2, if_false, Bool.false_eq_true]
      cases ht2 : t2.timeoutId with
      | some i =>
        unfold budget firedFor pendingFor
        simp only
        have hsub : List.countP (fun e => e.2.1 == tid)
            (w.timers.filter (fun e => e.1 ≠ i)) ≤
            List.countP (fun e => e.2.1 == tid) w.timers :=
          List.Sublist.countP_le _ (List.filter_sublist _)
        omega
      | none => exact Nat.le_refl _

/-- Scheduling with `delay ≤ 0` adds at most one registration, and only for
the scheduled task itself. -/
theorem budget_schedule_nonpos_le (w : World σ ε) (tid tid' : Nat) (st : Option σ)
    (delay : Int) (hd : delay ≤ 0) :
    budget (AfterNextRenderAction.schedule w tid' st delay) tid ≤
      budget w tid + (if tid' == tid then 1 else 0) := by
  unfold AfterNextRenderAction.schedule
  cases h2 : w.tasks tid' with
  | none => exact Nat.le_add_right _ _
  | some t2 =>
    by_cases hc2 : t2.closed
    · simp only [hc2, if_true]
      exact Nat.le_add_right _ _
    · simp only [hc2, if_false, Bool.false_eq_true, not_lt.mpr hd]
      unfold budget firedFor pendingFor
      simp only [List.countP_append, List.countP_cons, List.countP_nil]
      omega

/-- `execute` adds at most one invocation, and only for the executed task. -/
theorem budget_execute_le (w : World σ ε) (tid tid' : Nat) (st : Option σ) :
    budget (AfterNextRenderAction.execute w tid' st).1 tid ≤
      budget w tid + (if tid' == tid then 1 else 0) := by
  unfold AfterNextRenderAction.execute
  cases h2 : w.tasks tid' with
  | none => exact Nat.le_add_right _ _
  | some t2 =>
    by_cases hc2 : t2.closed
    · simp only [hc2, if_true]
      exact Nat.le_add_right _ _
    · simp only [hc2, if_false, Bool.false_eq_true]
      have hlogged : budget ({ w with log := w.log ++ [(tid', st)] } : World σ ε) tid =
          budget w tid + (if tid' == tid then 1 else 0) := by
        unfold budget firedFor pendingFor
        simp only [List.countP_append, List.countP_cons, List.countP_nil]
        omega
      cases hw2 : t2.work st with
      | none => exact Nat.le_of_eq hlogged
      | some e =>
        calc budget (AfterNextRenderAction.unsubscribe
                ({ w with log := w.log ++ [(tid', st)] } : World σ ε) tid') tid
            ≤ budget ({ w with log := w.log ++ [(tid', st)] } : World σ ε) tid :=
              budget_unsubscribe_le _ _ _
          _ = budget w tid + (if tid' == tid then 1 else 0) := hlogged

/-- Firing a timer never increases a task's budget: the consumed timer
registration pays for the render registration (or nothing) it creates. -/
theorem budget_fireTimer_le (w : World σ ε) (tid : Nat) :
    budget (fireTimer w) tid ≤ budget w tid := by
  unfold fireTimer
  cases htm : w.timers with
  | nil => exact Nat.le_refl _
  | cons e rest =>
    obtain ⟨i, tid', st, d⟩ := e
    have h1 := budget_schedule_nonpos_le ({ w with timers := rest } : World σ ε)
      tid tid' st 0 (Int.le_refl 0)
    have h2 : budget ({ w with timers := rest } : World σ ε) tid +
        (if tid' == tid then 1 else 0) = budget w tid := by
      unfold budget firedFor pendingFor
      simp only [htm, List.countP_cons]
      omega
    show budget (AfterNextRenderAction.schedule ({ w with timers := rest } : World σ ε)
      tid' st 0) tid ≤ budget w tid
    omega

/-- Firing a render callback never increases a task's budget: the consumed
registration pays for the invocation (or nothing) it produces. -/
theorem budget_fireRender_le (w : World σ ε) (tid : Nat) :
    budget (fireRender w).1 tid ≤ budget w tid := by
  unfold fireRender
  cases hrd : w.renders with
  | nil => exact Nat.le_refl _
  | cons e rest =>
    obtain ⟨tid', st, inj⟩ := e
    have h1 := budget_execute_le ({ w with renders := rest } : World σ ε) tid tid' st
    have h2 : budget ({ w with renders := rest } : World σ ε) tid +
        (if tid' == tid then 1 else 0) = budget w tid := by
      unfold budget firedFor pendingFor
      simp only [hrd, List.countP_cons]
      omega
    show budget (AfterNextRenderAction.execute ({ w with renders := rest } : World σ ε)
      tid' st).1 tid ≤ budget w tid
    omega

/-- Passive events (callback fires and cancellations) never increase budgets. -/
theorem budget_passive_stepEv_le (w : World σ ε) (tid : Nat) (ev : Ev σ)
    (hp : ev.isPassive = true) : budget (stepEv w ev) tid ≤ budget w tid := by
  cases ev with
  | schedule tid' s d => simp [Ev.isPassive] at hp
  | execute tid' s => simp [Ev.isPassive] at hp
  | unsub tid' => exact budget_unsubscribe_le _ _ _
  | fireTimer => exact budget_fireTimer_le _ _
  | fireRender => exact budget_fireRender_le _ _

/-- A passive event sequence never increases budgets. -/
theorem budget_runEvs_le (w : World σ ε) (tid : Nat) (evs : List (Ev σ))
    (hp : ∀ ev ∈ evs, ev.isPassive = true) :
    budget (runEvs w evs) tid ≤ budget w tid := by
  induction evs generalizing w with
  | nil => exact Nat.le_refl _
  | cons ev evs ih =>
    have h1 := budget_passive_stepEv_le w tid ev (hp ev (List.mem_cons_self _ _))
    have h2 := ih (stepEv w ev) (fun e he => hp e (List.mem_cons_of_mem _ he))
    exact Nat.le_trans h2 h1

/-! ### C1 — exactly-once firing -/

/-- A world whose only action (id 0) runs `wk`, with the given closed flag and
timer field; concrete input for witnesses and counterexamples. -/
def soloWorld (wk : Option Nat → Option Nat) (cl : Bool) (ti : Option Nat) :
    World Nat Nat :=
  { tasks := fun j =>
      if j = 0 then
        some { injector := some ⟨0⟩, work := wk, closed := cl, timeoutId := ti }
      else none
    nextTask := 1
    timers := []
    renders := []
    nextTimerId := 0
    log := []
    cleared := [] }

/-- C1 is false as stated: a successful `execute` leaves the task open
(`closed` stays `false` — the guard at line 60 is the only protection), so a
further invocation of `execute` invokes `work` again.  Here the first `execute`
returns normally having invoked `work` once, and a second `execute` invokes it
a second time. -/
theorem C1_counterexample_second_execute_runs_work :
    (AfterNextRenderAction.execute (soloWorld (fun _ => none) false none)
      0 (some 1)).2 = none ∧
    firedFor (AfterNextRenderAction.execute (soloWorld (fun _ => none) false none)
      0 (some 1)).1 0 = 1 ∧
    firedFor (AfterNextRenderAction.execute
      (AfterNextRenderAction.execute (soloWorld (fun _ => none) false none)
        0 (some 1)).1 0 (some 1)).1 0 = 2 := by
  refine ⟨rfl, rfl, rfl⟩

/-- C1 (amended): for a task created by `Scheduler.schedule` on a world with no
prior registrations or invocations for the fresh action id, `work` is invoked
at most once under any sequence of passive events — registered callbacks
firing (each registration is consumed when it fires, the providers' one-shot
guarantee) and cancellations.  The claim's stronger reading — at most once *no
matter how many times* the callbacks or `execute` are invoked — is refuted by
`C1_counterexample_second_execute_runs_work`, because a successful `execute`
leaves the task open. -/
theorem C1_amended_work_invoked_at_most_once {ν : Type}
    (sch : AfterNextRenderScheduler ν) (w : World σ ε)
    (work : Option σ → Option ε) (delay : Int) (state : Option σ)
    (hf : firedFor w w.nextTask = 0) (hp : pendingFor w w.nextTask = 0)
    (evs : List (Ev σ)) (hevs : ∀ ev ∈ evs, ev.isPassive = true) :
    firedFor (runEvs (sch.schedule w work delay state).1 evs)
      (sch.schedule w work delay state).2 ≤ 1 := by
  have hb : budget (sch.schedule w work delay state).1 w.nextTask ≤ 1 := by
    show budget (AfterNextRenderAction.schedule
      ({ w with
          tasks := fun j =>
            if j = w.nextTask then
              some { injector := sch.injector, work := work, closed := false,
                     timeoutId := none }
            else w.tasks j
          nextTask := w.nextTask + 1 } : World σ ε) w.nextTask state delay)
      w.nextTask ≤ 1
    unfold AfterNextRenderAction.schedule
    unfold firedFor at hf
    unfold pendingFor at hp
    by_cases hd : delay > 0
    · simp only [hd, if_true]
      unfold budget firedFor pendingFor
      simp [List.countP_append, List.countP_cons]
      omega
    · simp only [hd, if_false]
      unfold budget firedFor pendingFor
      simp [List.countP_append, List.countP_cons]
      omega
  have hrun := budget_runEvs_le (sch.schedule w work delay state).1 w.nextTask evs hevs
  have hle : firedFor (runEvs (sch.schedule w work delay state).1 evs) w.nextTask ≤
      budget (runEvs (sch.schedule w work delay state).1 evs) w.nextTask :=
    Nat.le_add_right _ _
  show firedFor (runEvs (sch.schedule w work delay state).1 evs) w.nextTask ≤ 1
  omega

/-- Witness for the amended C1: a zero-delay task on the empty world, with the
render queue fired twice (the second fire finds the queue empty) and the task
then cancelled; `work` ran exactly once, hence at most once. -/
theorem C1_amended_witness :
    firedFor (World.empty Nat Nat) 0 = 0 ∧
    pendingFor (World.empty Nat Nat) 0 = 0 ∧
    (∀ ev ∈ [Ev.fireRender, Ev.fireRender, Ev.unsub 0], Ev.isPassive (σ := Nat) ev = true) ∧
    firedFor (runEvs ((AfterNextRenderScheduler.schedule
        (⟨0, some ⟨0⟩⟩ : AfterNextRenderScheduler Nat)
        (World.empty Nat Nat) (fun _ => (none : Option Nat)) 0 none).1)
        [Ev.fireRender, Ev.fireRender, Ev.unsub 0])
      ((AfterNextRenderScheduler.schedule (⟨0, some ⟨0⟩⟩ : AfterNextRenderScheduler Nat)
        (World.empty Nat Nat) (fun _ => (none : Option Nat)) 0 none).2) ≤ 1 :=
  ⟨rfl, rfl, by decide,
    C1_amended_work_invoked_at_most_once
      (⟨0, some ⟨0⟩⟩ : AfterNextRenderScheduler Nat) (World.empty Nat Nat)
      (fun _ => none) 0 none rfl rfl
      [Ev.fireRender, Ev.fireRender, Ev.unsub 0] (by decide)⟩

/-! ### C9 — registration-order firing -/

/-- C9: two zero-delay tasks scheduled in order A then B (on a fresh checkpoint
opportunity, i.e. an empty render queue) register their callbacks with the
provider in order A then B; under the provider-level FIFO assumption (encoded
in `fireRender`, which fires the oldest registration) A's `work` is invoked
before B's, whatever either work function does — even if A's throws. -/
theorem C9_registration_order_firing {ν : Type} (sch : AfterNextRenderScheduler ν)
    (w : World σ ε) (workA workB : Option σ → Option ε) (sA sB : Option σ)
    (hr : w.renders = []) :
    (sch.schedule (sch.schedule w workA 0 sA).1 workB 0 sB).1.renders =
      [(w.nextTask, sA, sch.injector), (w.nextTask + 1, sB, sch.injector)] ∧
    (runEvs (sch.schedule (sch.schedule w workA 0 sA).1 workB 0 sB).1
        [Ev.fireRender, Ev.fireRender]).log =
      w.log ++ [(w.nextTask, sA), (w.nextTask + 1, sB)] := by
  have hne : w.nextTask + 1 ≠ w.nextTask := Nat.succ_ne_self _
  constructor
  · simp [AfterNextRenderScheduler.schedule, AfterNextRenderAction.schedule, hr]
  · cases hA : workA sA <;> cases hB : workB sB <;>
      simp [AfterNextRenderScheduler.schedule, AfterNextRenderAction.schedule,
        AfterNextRenderAction.execute, AfterNextRenderAction.unsubscribe,
        runEvs, stepEv, fireRender, hr, hA, hB, hne]

/-! ### Witnesses at concrete inputs -/

/-- Witness for C2 on a concrete cancelled task: repeated `execute`, a
`schedule`, and a run of fire events all leave it closed and never run it. -/
theorem C2_cancellation_absorbing_witness :
    (soloWorld (fun _ => none) true none).tasks 0 =
      some { injector := some ⟨0⟩, work := fun _ => none, closed := true,
             timeoutId := none } ∧
    AfterNextRenderAction.execute (soloWorld (fun _ => none) true none) 0 (some 3) =
      (soloWorld (fun _ => none) true none, none) ∧
    AfterNextRenderAction.schedule (soloWorld (fun _ => none) true none) 0 (some 3) 0 =
      soloWorld (fun _ => none) true none ∧
    firedFor (runEvs (soloWorld (fun _ => none) true none)
      [Ev.fireRender, Ev.fireTimer]) 0 = firedFor (soloWorld (fun _ => none) true none) 0 := by
  have h := C2_cancellation_absorbing (soloWorld (fun _ => none) true none) 0
    { injector := some ⟨0⟩, work := fun _ => none, closed := true, timeoutId := none }
    rfl rfl
  exact ⟨rfl, h.1 (some 3), h.2.1 (some 3) 0, (h.2.2 [Ev.fireRender, Ev.fireTimer]).2⟩

/-- Witness for C4 on a concrete live task: delay 5 arms one 5 ms timer,
delay 0 registers one render callback. -/
theorem C4_schedule_timer_or_render_witness :
    ((0:Int) < 5) ∧
    (AfterNextRenderAction.schedule (soloWorld (fun _ => none) false none)
      0 (some 1) 5).timers = [(0, 0, some 1, 5)] ∧
    (AfterNextRenderAction.schedule (soloWorld (fun _ => none) false none)
      0 (some 1) 0).renders = [(0, some 1, some ⟨0⟩)] := by
  have h5 := C4_schedule_timer_or_render (soloWorld (fun _ => none) false none) 0
    { injector := some ⟨0⟩, work := fun _ => none, closed := false, timeoutId := none }
    (some 1) 5 rfl rfl
  have h0 := C4_schedule_timer_or_render (soloWorld (fun _ => none) false none) 0
    { injector := some ⟨0⟩, work := fun _ => none, closed := false, timeoutId := none }
    (some 1) 0 rfl rfl
  refine ⟨by norm_num, ?_, ?_⟩
  · rw [(h5.1 (by norm_num)).1]
    rfl
  · rw [(h0.2 (by norm_num)).1]
    rfl

/-- Witness for C5 on a concrete live task whose work throws `9`: `execute`
re-raises `9` and leaves the task closed, with the timer id cleared. -/
theorem C5_work_error_witness :
    (soloWorld (fun _ => some 9) false (some 3)).tasks 0 =
      some { injector := some ⟨0⟩, work := fun _ => some 9, closed := false,
             timeoutId := some 3 } ∧
    (∃ w2, AfterNextRenderAction.execute (soloWorld (fun _ => some 9) false (some 3))
        0 none = (w2, some 9) ∧ closedAt w2 0 ∧ w2.cleared = [3]) := by
  have h := C5_work_error_cancels_and_reraises (soloWorld (fun _ => some 9) false (some 3))
    0 { injector := some ⟨0⟩, work := fun _ => some 9, closed := false, timeoutId := some 3 }
    none 9 rfl rfl rfl
  obtain ⟨w2, h1, h2, h3, h4, h5⟩ := h
  exact ⟨rfl, ⟨w2, h1, h2, (h4 3 rfl).2⟩⟩

/-- Witness for C9 on concrete tasks A (which throws) and B: both fire, in
registration order A then B. -/
theorem C9_registration_order_witness :
    (World.empty Nat Nat).renders = [] ∧
    (runEvs ((AfterNextRenderScheduler.schedule (⟨0, some ⟨0⟩⟩ : AfterNextRenderScheduler Nat)
        ((AfterNextRenderScheduler.schedule (⟨0, some ⟨0⟩⟩ : AfterNextRenderScheduler Nat)
          (World.empty Nat Nat) (fun _ => some 7) 0 (some 1)).1)
        (fun _ => none) 0 (some 2)).1)
        [Ev.fireRender, Ev.fireRender]).log = [(0, some 1), (1, some 2)] := by
  have h := C9_registration_order_firing (⟨0, some ⟨0⟩⟩ : AfterNextRenderScheduler Nat)
    (World.empty Nat Nat) (fun _ => some 7) (fun _ => none) (some 1) (some 2) rfl
  exact ⟨rfl, h.2⟩

/-- Witness for C10 on a concrete live task with succeeding work: `execute`
only appends the log entry, and scheduling again registers a new callback. -/
theorem C10_execute_success_frame_witness :
    (soloWorld (fun _ => none) false none).tasks 0 =
      some { injector := some ⟨0⟩, work := fun _ => none, closed := false,
             timeoutId := none } ∧
    AfterNextRenderAction.execute (soloWorld (fun _ => none) false none) 0 (some 2) =
      ({ soloWorld (fun _ => none) false none with log := [(0, some 2)] }, none) ∧
    AfterNextRenderAction.schedule
        (AfterNextRenderAction.execute (soloWorld (fun _ => none) false none)
          0 (some 2)).1 0 (some 4) 0 =
      { soloWorld (fun _ => none) false none with
        log := [(0, some 2)]
        renders := [(0, some 4, some ⟨0⟩)] } := by
  have h := C10_execute_success_frame (soloWorld (fun _ => none) false none) 0
    { injector := some ⟨0⟩, work := fun _ => none, closed := false, timeoutId := none }
    (some 2) rfl rfl rfl
  exact ⟨rfl, h.1, h.2 (some 4) 0 (by norm_num)⟩
